import Mathlib

/-!
Shallow embedding of the selection/pagination logic of
`src/components/ArtworksTable.tsx` (ermadhav/IP).

JavaScript values that can be `null` or `undefined` are modelled as
`Option`; both `null` and `undefined` map to `none` (the code's `?? null`
collapses `undefined` into `null`, and neither is distinguishable at the
level of the properties treated here).  The ES `Map` held in the
`selectedMap` React state is modelled as an insertion-ordered association
list with `set` / `delete` / `get` / `has` following the ES Map semantics
(`set` on an existing key overwrites in place, otherwise appends).
React state updates inside one handler are modelled as a pure function
from the component state to the next component state.
-/

namespace ArtworksTable

/-- A raw record of the API response `data` array (`d : any` at line 50).
Each consumed field is `none` when absent (`undefined`) or `null`;
`extra` stands for all remaining fields of the raw JSON object, which the
normalization never reads. -/
structure RawArtwork where
  id : Option Int
  title : Option String
  place_of_origin : Option String
  artist_display : Option String
  inscriptions : Option String
  date_start : Option Int
  date_end : Option Int
  extra : List (String × String)
deriving DecidableEq

/-- The normalized record built at lines 50–58 (TS type `Artwork`). -/
structure Artwork where
  id : Option Int
  title : Option String
  place_of_origin : Option String
  artist_display : Option String
  inscriptions : Option String
  date_start : Option Int
  date_end : Option Int
deriving DecidableEq

/-- Lines 50–58: `id: d.id`, `title: d.title`, and `f: d.f ?? null` for the
five remaining fields.  With `none` standing for both `undefined` and
`null`, `d.f ?? null` is just `d.f`. -/
def normalizeArtwork (d : RawArtwork) : Artwork :=
  { id := d.id
    title := d.title
    place_of_origin := d.place_of_origin
    artist_display := d.artist_display
    inscriptions := d.inscriptions
    date_start := d.date_start
    date_end := d.date_end }

/-- `Pick<Artwork, 'id' | 'title' | 'artist_display'>`, the value type of
`selectedMap`. -/
structure SelEntry where
  id : Option Int
  title : Option String
  artist_display : Option String
deriving DecidableEq

/-- The projection stored for a selected row
(`{ id: row.id, title: row.title, artist_display: row.artist_display }`). -/
def entryOf (row : Artwork) : SelEntry :=
  { id := row.id, title := row.title, artist_display := row.artist_display }

/-- The ES `Map<number, SelEntry>` as an insertion-ordered association
list.  The key type is `Option Int` because `row.id` is itself a JS value
that could be `undefined`. -/
abbrev SelMap := List (Option Int × SelEntry)

/-- `map.get(k)` (as far as the entry is concerned; the code only ever
uses `has`, `set`, `delete` and `values`, and `get` is the natural
observation the claims are phrased with). -/
def mapGet (m : SelMap) (k : Option Int) : Option SelEntry :=
  (m.find? (fun p => p.1 == k)).map (fun p => p.2)

/-- `map.has(k)`. -/
def mapHas (m : SelMap) (k : Option Int) : Bool :=
  m.any (fun p => p.1 == k)

/-- `map.set(k, v)`: overwrite in place when the key is present,
append otherwise. -/
def mapSet (m : SelMap) (k : Option Int) (v : SelEntry) : SelMap :=
  if m.any (fun p => p.1 == k) then
    m.map (fun p => if p.1 == k then (k, v) else p)
  else
    m ++ [(k, v)]

/-- `map.delete(k)`. -/
def mapDelete (m : SelMap) (k : Option Int) : SelMap :=
  m.filter (fun p => !(p.1 == k))

/-- The `pagination` object of the API response; every field is optional
raw JSON. -/
structure Pagination where
  total : Option Int
  limit : Option Int
  current_page : Option Int
  total_pages : Option Int
deriving DecidableEq

/-- The parsed response body (`json : ApiResponse`, lines 22–25 and 49).
`data` is `none` when the body has no (or a null) `data` field, matching
`json.data || []`; `pagination` likewise, matching `json.pagination?.`. -/
structure ApiResponse where
  pagination : Option Pagination
  data : Option (List RawArtwork)
deriving DecidableEq

/-- The React state of the component: `rows`, `loading`, `totalRecords`,
`currentPage`, `selectedMap`, `pageSelection` (lines 30–41), plus the
observability sink written by `console.error` at line 67.

`pendingSnap` models the stale closure of an in-flight `fetchPage`: the
async function closes over the `selectedMap` binding of the render that
issued it, and line 64 (`artworks.filter(r => selectedMap.has(r.id))`)
reads that captured value, not the `selectedMap` committed when the
response settles.  `pendingSnap` is `some` of the captured map while a
fetch is in flight and `none` otherwise; selection mutations during the
flight change `selectedMap` but never `pendingSnap`, exactly as they
never change the closure's capture. -/
structure CompState where
  rows : List Artwork
  loading : Bool
  totalRecords : Int
  currentPage : Int
  selectedMap : SelMap
  pageSelection : List Artwork
  errorLog : List String
  pendingSnap : Option SelMap
deriving DecidableEq

/-- The state at component mount (`useState` initializers). -/
def initState : CompState :=
  { rows := []
    loading := false
    totalRecords := 0
    currentPage := 1
    selectedMap := []
    pageSelection := []
    errorLog := []
    pendingSnap := none }

/-- `setLoading(true)` at line 44, the start of `fetchPage`.  Issuing the
fetch also fixes the closure's capture of `selectedMap`, recorded in
`pendingSnap`. -/
def fetchStart (s : CompState) : CompState :=
  { s with loading := true, pendingSnap := some s.selectedMap }

/-- The success path of `fetchPage` (lines 50–65, then the `finally` at
lines 68–70): normalize `json.data || []`, replace `rows`, set
`totalRecords` to `json.pagination?.total ?? 0`, restore `pageSelection`
as `artworks.filter(r => selectedMap.has(r.id))` — where `selectedMap`
is the issue-time capture held in `pendingSnap`, not the settle-time
state — and clear `loading`.  (The `getD` fallback only concerns the
degenerate case of a settle with no recorded issuance, which no run
produced by the component exhibits.) -/
def fetchSuccess (resp : ApiResponse) (s : CompState) : CompState :=
  let artworks := (resp.data.getD []).map normalizeArtwork
  { s with
    rows := artworks
    totalRecords := (resp.pagination.bind Pagination.total).getD 0
    pageSelection :=
      artworks.filter (fun r => mapHas (s.pendingSnap.getD s.selectedMap) r.id)
    loading := false
    pendingSnap := none }

/-- The failure path of `fetchPage` (lines 66–70): log to the
observability sink and clear `loading`; nothing else changes (the
settled request's capture is discarded). -/
def fetchFailure (s : CompState) : CompState :=
  { s with
    errorLog := s.errorLog ++ ["fetch error"]
    loading := false
    pendingSnap := none }

/-- `onPageChange` (lines 77–81): `newPage = e.page + 1` (the paginator
reports a 0-based page), `setCurrentPage(newPage)`, then `fetchPage`
is issued, whose first effect is `setLoading(true)`. -/
def onPageChange (page : Int) (s : CompState) : CompState :=
  fetchStart { s with currentPage := page + 1 }

/-- `onSelectionChange` (lines 84–100): store the fully-checked subset in
`pageSelection`, then update `selectedMap`: first `set` an entry for
every checked row, then for every visible row with no checked row of the
same id, `delete` its key. -/
def onSelectionChange (selected : List Artwork) (s : CompState) : CompState :=
  let afterSets :=
    selected.foldl (fun m row => mapSet m row.id (entryOf row)) s.selectedMap
  let afterDeletes :=
    s.rows.foldl
      (fun m row =>
        if (selected.find? (fun x => x.id == row.id)).isSome then m
        else mapDelete m row.id)
      afterSets
  { s with pageSelection := selected, selectedMap := afterDeletes }

/-- `selectAllOnPage` (lines 102–109). -/
def selectAllOnPage (s : CompState) : CompState :=
  { s with
    selectedMap := s.rows.foldl (fun m r => mapSet m r.id (entryOf r)) s.selectedMap
    pageSelection := s.rows }

/-- `clearSelectionOnPage` (lines 111–118). -/
def clearSelectionOnPage (s : CompState) : CompState :=
  { s with
    selectedMap := s.rows.foldl (fun m r => mapDelete m r.id) s.selectedMap
    pageSelection := [] }

/-- `removeFromSelection` (lines 120–127). -/
def removeFromSelection (id : Option Int) (s : CompState) : CompState :=
  { s with
    selectedMap := mapDelete s.selectedMap id
    pageSelection := s.pageSelection.filter (fun r => !(r.id == id)) }

/-- `Array.from(selectedMap.values())` as used by the summary panel
(line 145). -/
def readAll (s : CompState) : List SelEntry :=
  s.selectedMap.map (fun p => p.2)

/-- One user-interaction or network-settle callback.  `pageChange`
carries the paginator's 0-based page; `fetchOk`/`fetchFail` settle the
in-flight request. -/
inductive Event where
  | selChange (selected : List Artwork)
  | selectAll
  | clearPage
  | removeOne (id : Option Int)
  | pageChange (page : Int)
  | fetchOk (resp : ApiResponse)
  | fetchFail
deriving DecidableEq

/-- The state transition for one callback. -/
def stepEv (s : CompState) (e : Event) : CompState :=
  match e with
  | .selChange sel => onSelectionChange sel s
  | .selectAll => selectAllOnPage s
  | .clearPage => clearSelectionOnPage s
  | .removeOne k => removeFromSelection k s
  | .pageChange p => onPageChange p s
  | .fetchOk resp => fetchSuccess resp s
  | .fetchFail => fetchFailure s

/-- Run a callback sequence from the mount state. -/
def run (evs : List Event) : CompState :=
  evs.foldl stepEv initState

/-- Spec-side transcription (for comparison with the code) of the
invariant sentence: one callback's effect on whether identifier `k`
counts as "last marked selected".  A toggle marks `k` selected when a
checked row carries it, deselected when a visible row carries it and no
checked row does; select-all / clear-page mark every visible identifier;
remove-one marks its argument deselected; a successful fetch only
replaces the visible list.  (The table only ever reports checked sets
drawn from the visible rows; the transcription records what each
operation does with whatever list it is handed.)  The first component
tracks the visible rows, the second whether `k` was last marked
selected. -/
def lastMarkStep (k : Option Int) (p : List Artwork × Bool) (e : Event) :
    List Artwork × Bool :=
  match e with
  | .selChange sel =>
      (p.1,
        if sel.any (fun x => x.id == k) then true
        else if p.1.any (fun r => r.id == k) then false
        else p.2)
  | .selectAll => (p.1, if p.1.any (fun r => r.id == k) then true else p.2)
  | .clearPage => (p.1, if p.1.any (fun r => r.id == k) then false else p.2)
  | .removeOne i => (p.1, if i == k then false else p.2)
  | .pageChange _ => p
  | .fetchOk resp => ((resp.data.getD []).map normalizeArtwork, p.2)
  | .fetchFail => p

/-- Spec-side: after the callback sequence `evs` from mount, was the last
operation affecting identifier `k` one that marked it selected? -/
def lastMarkedSelected (evs : List Event) (k : Option Int) : Bool :=
  (evs.foldl (lastMarkStep k) ([], false)).2

/-- A concrete artwork with identifier `n`, for concrete evaluations. -/
def sampleArt (n : Int) : Artwork :=
  { id := some n
    title := none
    place_of_origin := none
    artist_display := none
    inscriptions := none
    date_start := none
    date_end := none }

/-- A concrete raw record with identifier `n`. -/
def sampleRaw (n : Int) : RawArtwork :=
  { id := some n
    title := none
    place_of_origin := none
    artist_display := none
    inscriptions := none
    date_start := none
    date_end := none
    extra := [] }

/-- A concrete component state: page with artworks 1 and 2 visible,
artworks 9 (off page) and 1 (on page) durably selected, and the visible
checked subset derived from the store. -/
def sampleState : CompState :=
  { rows := [sampleArt 1, sampleArt 2]
    loading := false
    totalRecords := 2
    currentPage := 1
    selectedMap := [(some 9, entryOf (sampleArt 9)), (some 1, entryOf (sampleArt 1))]
    pageSelection := [sampleArt 1]
    errorLog := []
    pendingSnap := none }

/-- A concrete state with a fetch in flight and a selection mutation
that happened during the flight: the fetch was issued from
`sampleState` (so its closure captured a map holding 9 and 1), after
which identifier 1 was removed from the store. -/
def stale5State : CompState :=
  removeFromSelection (some 1) (fetchStart sampleState)

/-- A concrete successful response carrying records 1 and 2. -/
def sampleResp : ApiResponse :=
  { pagination := some
      { total := some 5, limit := some 10, current_page := some 1, total_pages := some 1 }
    data := some [sampleRaw 1, sampleRaw 2] }

/-- A concrete response whose body has neither `data` nor `pagination`. -/
def emptyResp : ApiResponse :=
  { pagination := none, data := none }

/-! ### Basic lemmas about the map operations -/

theorem find?_isSome_any {α : Type} (l : List α) (p : α → Bool) :
    (l.find? p).isSome = l.any p := by
  induction l with
  | nil => rfl
  | cons a t ih =>
    by_cases h : p a = true
    · simp [List.find?_cons, h]
    · simp only [Bool.not_eq_true] at h
      simp [List.find?_cons, h, ih]

theorem mapHas_eq_isSome (m : SelMap) (k : Option Int) :
    mapHas m k = (mapGet m k).isSome := by
  simp [mapHas, mapGet, find?_isSome_any]

theorem mapGet_mapDelete (m : SelMap) (k k' : Option Int) :
    mapGet (mapDelete m k) k' = if k' = k then none else mapGet m k' := by
  induction m with
  | nil => simp [mapGet, mapDelete]
  | cons a t ih =>
    by_cases hak : a.1 = k
    · have : mapDelete (a :: t) k = mapDelete t k := by
        simp [mapDelete, List.filter_cons, hak]
      rw [this, ih]
      by_cases hk : k' = k
      · simp [hk]
      · have hak' : ¬ a.1 = k' := by
          intro h; exact hk (h ▸ hak ▸ rfl)
        simp only [beq_iff_eq] at *
        simp [hk, mapGet, List.find?_cons, hak']
    · have : mapDelete (a :: t) k = a :: mapDelete t k := by
        simp [mapDelete, List.filter_cons, hak]
      rw [this]
      by_cases hak' : a.1 = k'
      · have hk : ¬ k' = k := by
          intro h
          exact hak (Eq.trans hak' h)
        simp [mapGet, List.find?_cons, hak', hk]
      · simp only [mapGet, List.find?_cons] at *
        have h1 : (a.1 == k') = false := by
          simp [hak']
        simp only [h1, cond_false]
        exact ih

theorem mapHas_mapDelete (m : SelMap) (k k' : Option Int) :
    mapHas (mapDelete m k) k' = if k' = k then false else mapHas m k' := by
  rw [mapHas_eq_isSome, mapGet_mapDelete, mapHas_eq_isSome]
  by_cases h : k' = k <;> simp [h]

theorem find?_map_update_self (m : SelMap) (k : Option Int) (v : SelEntry)
    (h : m.any (fun p => p.1 == k) = true) :
    (m.map (fun p => if p.1 == k then (k, v) else p)).find? (fun p => p.1 == k)
      = some (k, v) := by
  induction m with
  | nil => simp at h
  | cons a t ih =>
    by_cases hak : a.1 = k
    · rw [List.map_cons, if_pos (by simp [hak] : ((a.1 == k) = true))]
      exact List.find?_cons_of_pos _ (by simp)
    · have h1 : (a.1 == k) = false := by simp [hak]
      simp only [List.any_cons, h1, Bool.false_or] at h
      rw [List.map_cons, if_neg (by simp [hak] : ¬ ((a.1 == k) = true)),
        List.find?_cons_of_neg _ (by simp [hak])]
      exact ih h

theorem find?_map_update_ne (m : SelMap) (k : Option Int) (v : SelEntry)
    (k' : Option Int) (h : ¬ k' = k) :
    (m.map (fun p => if p.1 == k then (k, v) else p)).find? (fun p => p.1 == k')
      = m.find? (fun p => p.1 == k') := by
  induction m with
  | nil => rfl
  | cons a t ih =>
    by_cases hak : a.1 = k
    · rw [List.map_cons, if_pos (by simp [hak] : ((a.1 == k) = true)),
        List.find?_cons_of_neg _
          (by simp only [beq_iff_eq]; intro hh; exact h hh.symm),
        List.find?_cons_of_neg _
          (by simp only [beq_iff_eq]; rw [hak]; intro hh; exact h hh.symm)]
      exact ih
    · rw [List.map_cons, if_neg (by simp [hak] : ¬ ((a.1 == k) = true))]
      by_cases hak' : a.1 = k'
      · rw [List.find?_cons_of_pos _ (by simp [hak']),
          List.find?_cons_of_pos _ (by simp [hak'])]
      · rw [List.find?_cons_of_neg _ (by simp [hak']),
          List.find?_cons_of_neg _ (by simp [hak'])]
        exact ih

theorem mapGet_mapSet (m : SelMap) (k : Option Int) (v : SelEntry)
    (k' : Option Int) :
    mapGet (mapSet m k v) k' = if k' = k then some v else mapGet m k' := by
  unfold mapSet
  by_cases hany : m.any (fun p => p.1 == k) = true
  · rw [if_pos hany]
    by_cases hk : k' = k
    · subst hk
      unfold mapGet
      rw [find?_map_update_self m k' v hany]
      simp
    · unfold mapGet
      rw [find?_map_update_ne m k v k' hk]
      simp [hk, mapGet]
  · rw [if_neg hany]
    have hnone : m.find? (fun p => p.1 == k) = none := by
      have h1 := find?_isSome_any m (fun p => p.1 == k)
      rw [eq_false_of_ne_true hany] at h1
      exact Option.not_isSome_iff_eq_none.mp (by simp [h1])
    by_cases hk : k' = k
    · subst hk
      unfold mapGet
      rw [List.find?_append, hnone]
      simp [List.find?_cons]
    · unfold mapGet
      rw [List.find?_append]
      have h2 : List.find? (fun p => p.1 == k') [(k, v)] = none := by
        rw [List.find?_cons_of_neg _
          (by simp only [beq_iff_eq]; intro hh; exact hk hh.symm)]
        rfl
      rw [h2]
      simp [hk, mapGet]

theorem mapHas_mapSet (m : SelMap) (k : Option Int) (v : SelEntry)
    (k' : Option Int) :
    mapHas (mapSet m k v) k' = if k' = k then true else mapHas m k' := by
  rw [mapHas_eq_isSome, mapGet_mapSet, mapHas_eq_isSome]
  by_cases h : k' = k <;> simp [h]

/-! ### Lemmas about the folds performed by the selection handlers -/

theorem anyId_iff (l : List Artwork) (k : Option Int) :
    (l.any (fun r => r.id == k) = true) ↔ k ∈ l.map Artwork.id := by
  simp only [List.any_eq_true, beq_iff_eq, List.mem_map]

theorem foldl_set_get_of_not_any (l : List Artwork) (m : SelMap)
    (k : Option Int) (h : l.any (fun r => r.id == k) = false) :
    mapGet (l.foldl (fun m r => mapSet m r.id (entryOf r)) m) k = mapGet m k := by
  induction l generalizing m with
  | nil => rfl
  | cons a t ih =>
    simp only [List.any_cons, Bool.or_eq_false_iff] at h
    have h1 : ¬ a.id = k := by simpa using h.1
    rw [List.foldl_cons, ih _ h.2, mapGet_mapSet,
      if_neg (fun hh => h1 hh.symm)]

theorem foldl_set_has (l : List Artwork) (m : SelMap) (k : Option Int) :
    mapHas (l.foldl (fun m r => mapSet m r.id (entryOf r)) m) k
      = (l.any (fun r => r.id == k) || mapHas m k) := by
  induction l generalizing m with
  | nil => simp
  | cons a t ih =>
    rw [List.foldl_cons, ih, mapHas_mapSet, List.any_cons]
    by_cases hak : k = a.id
    · simp [hak]
    · have h1 : (a.id == k) = false := by
        simp only [beq_eq_false_iff_ne, ne_eq]
        intro hh
        exact hak hh.symm
      simp [hak, h1]

theorem foldl_set_get_mem (l : List Artwork) (m : SelMap) (r : Artwork)
    (hr : r ∈ l) (hnd : (l.map Artwork.id).Nodup) :
    mapGet (l.foldl (fun m x => mapSet m x.id (entryOf x)) m) r.id
      = some (entryOf r) := by
  induction l generalizing m with
  | nil => cases hr
  | cons a t ih =>
    rw [List.map_cons, List.nodup_cons] at hnd
    rcases List.mem_cons.mp hr with h | h
    · subst h
      have hnot : t.any (fun x => x.id == r.id) = false := by
        rw [← Bool.not_eq_true]
        intro hh
        exact hnd.1 ((anyId_iff t r.id).mp hh)
      rw [List.foldl_cons, foldl_set_get_of_not_any t _ _ hnot,
        mapGet_mapSet, if_pos rfl]
    · rw [List.foldl_cons]
      exact ih _ h hnd.2

theorem foldl_delete_get (l : List Artwork) (m : SelMap) (k : Option Int) :
    mapGet (l.foldl (fun m r => mapDelete m r.id) m) k
      = if l.any (fun r => r.id == k) then none else mapGet m k := by
  induction l generalizing m with
  | nil => simp
  | cons a t ih =>
    rw [List.foldl_cons, ih, mapGet_mapDelete, List.any_cons]
    by_cases hak : k = a.id
    · have h1 : (a.id == k) = true := by simp [hak]
      by_cases ht : t.any (fun r => r.id == k) = true
      · simp [h1, ht]
      · simp [h1, ht, hak]
    · have h1 : (a.id == k) = false := by
        simp only [beq_eq_false_iff_ne, ne_eq]
        intro hh
        exact hak hh.symm
      by_cases ht : t.any (fun r => r.id == k) = true
      · simp [h1, ht]
      · simp [h1, ht, hak]

theorem foldl_condDelete_get (rows sel : List Artwork) (m : SelMap)
    (k : Option Int) :
    mapGet (rows.foldl
        (fun m row =>
          if (sel.find? (fun x => x.id == row.id)).isSome then m
          else mapDelete m row.id)
        m) k
      = if (rows.any (fun r => r.id == k) && !(sel.any (fun x => x.id == k)))
          then none
        else mapGet m k := by
  induction rows generalizing m with
  | nil => simp
  | cons a t ih =>
    rw [List.foldl_cons, ih, find?_isSome_any]
    by_cases hak : a.id = k
    · rw [hak]
      by_cases hsel : sel.any (fun x => x.id == k) = true
      · simp [hsel]
      · simp [hsel, mapGet_mapDelete, hak]
    · have h1 : (a.id == k) = false := by simp [hak]
      by_cases hsel2 : sel.any (fun x => x.id == a.id) = true
      · simp [hsel2, h1]
      · have h2 : mapGet (mapDelete m a.id) k = mapGet m k := by
          rw [mapGet_mapDelete, if_neg (fun hh => hak hh.symm)]
        simp [hsel2, h1, h2]

/-! ### The selection map produced by each handler -/

theorem selectedMap_onSelectionChange (sel : List Artwork) (s : CompState) :
    (onSelectionChange sel s).selectedMap
      = s.rows.foldl
          (fun m row =>
            if (sel.find? (fun x => x.id == row.id)).isSome then m
            else mapDelete m row.id)
          (sel.foldl (fun m row => mapSet m row.id (entryOf row)) s.selectedMap) := rfl

theorem mapGet_onSelectionChange (sel : List Artwork) (s : CompState)
    (k : Option Int) :
    mapGet (onSelectionChange sel s).selectedMap k
      = if (s.rows.any (fun r => r.id == k) && !(sel.any (fun x => x.id == k)))
          then none
        else mapGet
          (sel.foldl (fun m row => mapSet m row.id (entryOf row)) s.selectedMap) k := by
  rw [selectedMap_onSelectionChange, foldl_condDelete_get]

theorem mapHas_onSelectionChange (sel : List Artwork) (s : CompState)
    (k : Option Int) :
    mapHas (onSelectionChange sel s).selectedMap k
      = if sel.any (fun x => x.id == k) then true
        else if s.rows.any (fun r => r.id == k) then false
        else mapHas s.selectedMap k := by
  rw [mapHas_eq_isSome, mapGet_onSelectionChange]
  by_cases hsel : sel.any (fun x => x.id == k) = true
  · simp [hsel, ← mapHas_eq_isSome, foldl_set_has]
  · by_cases hrows : s.rows.any (fun r => r.id == k) = true
    · simp [hsel, hrows]
    · simp [hsel, hrows, ← mapHas_eq_isSome, foldl_set_has]

theorem mapHas_selectAllOnPage (s : CompState) (k : Option Int) :
    mapHas (selectAllOnPage s).selectedMap k
      = (s.rows.any (fun r => r.id == k) || mapHas s.selectedMap k) :=
  foldl_set_has s.rows s.selectedMap k

theorem mapGet_clearSelectionOnPage (s : CompState) (k : Option Int) :
    mapGet (clearSelectionOnPage s).selectedMap k
      = if s.rows.any (fun r => r.id == k) then none
        else mapGet s.selectedMap k :=
  foldl_delete_get s.rows s.selectedMap k

theorem mapHas_clearSelectionOnPage (s : CompState) (k : Option Int) :
    mapHas (clearSelectionOnPage s).selectedMap k
      = if s.rows.any (fun r => r.id == k) then false
        else mapHas s.selectedMap k := by
  rw [mapHas_eq_isSome, mapGet_clearSelectionOnPage]
  by_cases h : s.rows.any (fun r => r.id == k) = true
  · simp [h]
  · simp [h, ← mapHas_eq_isSome]

/-! ### Projections of the fetch transitions -/

theorem rows_fetchSuccess (resp : ApiResponse) (s : CompState) :
    (fetchSuccess resp s).rows = (resp.data.getD []).map normalizeArtwork := rfl

theorem totalRecords_fetchSuccess (resp : ApiResponse) (s : CompState) :
    (fetchSuccess resp s).totalRecords
      = (resp.pagination.bind Pagination.total).getD 0 := rfl

theorem pageSelection_fetchSuccess (resp : ApiResponse) (s : CompState) :
    (fetchSuccess resp s).pageSelection
      = ((resp.data.getD []).map normalizeArtwork).filter
          (fun r => mapHas (s.pendingSnap.getD s.selectedMap) r.id) := rfl

theorem selectedMap_fetchSuccess (resp : ApiResponse) (s : CompState) :
    (fetchSuccess resp s).selectedMap = s.selectedMap := rfl

theorem selectedMap_onPageChange (p : Int) (s : CompState) :
    (onPageChange p s).selectedMap = s.selectedMap := rfl

theorem pendingSnap_onPageChange (p : Int) (s : CompState) :
    (onPageChange p s).pendingSnap = some s.selectedMap := rfl

theorem pendingSnap_fetchStart (s : CompState) :
    (fetchStart s).pendingSnap = some s.selectedMap := rfl

/-! ### One callback preserves the last-marked reading of the store -/

theorem stepEv_mark (s : CompState) (e : Event) (k : Option Int) :
    lastMarkStep k (s.rows, mapHas s.selectedMap k) e
      = ((stepEv s e).rows, mapHas (stepEv s e).selectedMap k) := by
  cases e with
  | selChange sel =>
    have hrows : (onSelectionChange sel s).rows = s.rows := rfl
    simp only [lastMarkStep, stepEv, hrows, mapHas_onSelectionChange]
  | selectAll =>
    have hrows : (selectAllOnPage s).rows = s.rows := rfl
    simp only [lastMarkStep, stepEv, hrows, mapHas_selectAllOnPage]
    by_cases h : s.rows.any (fun r => r.id == k) = true
    · simp [h]
    · simp [h]
  | clearPage =>
    have hrows : (clearSelectionOnPage s).rows = s.rows := rfl
    simp only [lastMarkStep, stepEv, hrows, mapHas_clearSelectionOnPage]
  | removeOne i =>
    have hrows : (removeFromSelection i s).rows = s.rows := rfl
    have hm : (removeFromSelection i s).selectedMap
        = mapDelete s.selectedMap i := rfl
    simp only [lastMarkStep, stepEv, hrows, hm, mapHas_mapDelete]
    by_cases h : k = i
    · simp [h]
    · have h2 : (i == k) = false := by
        simp only [beq_eq_false_iff_ne, ne_eq]
        intro hh
        exact h hh.symm
      simp [h, h2]
  | pageChange p => rfl
  | fetchOk resp => rfl
  | fetchFail => rfl

theorem run_mark_aux (evs : List Event) :
    ∀ (s : CompState) (k : Option Int),
      evs.foldl (lastMarkStep k) (s.rows, mapHas s.selectedMap k)
        = ((evs.foldl stepEv s).rows, mapHas (evs.foldl stepEv s).selectedMap k) := by
  induction evs with
  | nil =>
    intro s k
    rfl
  | cons e t ih =>
    intro s k
    rw [List.foldl_cons, List.foldl_cons, stepEv_mark]
    exact ih (stepEv s e) k

/-! ### The claims -/

/-- C1: toggling the page selection with a checked subset of the visible
rows (distinct identifiers) maps each checked row's identifier to its
projection entry, removes each unchecked visible row's identifier,
leaves every identifier off the current page exactly as it was, and the
resulting key set is the checked identifiers united with the previously
present identifiers that are not on the current page. -/
theorem claim1_toggle_page_selection (s : CompState) (sel : List Artwork)
    (hsub : ∀ r ∈ sel, r ∈ s.rows)
    (hnd : (sel.map Artwork.id).Nodup) :
    (∀ r ∈ sel,
      mapGet (onSelectionChange sel s).selectedMap r.id = some (entryOf r)) ∧
    (∀ r ∈ s.rows, ¬ r.id ∈ sel.map Artwork.id →
      mapGet (onSelectionChange sel s).selectedMap r.id = none) ∧
    (∀ k, ¬ k ∈ s.rows.map Artwork.id →
      mapGet (onSelectionChange sel s).selectedMap k = mapGet s.selectedMap k) ∧
    (∀ k, mapHas (onSelectionChange sel s).selectedMap k = true ↔
      (k ∈ sel.map Artwork.id ∨
        (mapHas s.selectedMap k = true ∧ ¬ k ∈ s.rows.map Artwork.id))) := by
  refine ⟨?_, ?_, ?_, ?_⟩
  · intro r hr
    have hselany : sel.any (fun x => x.id == r.id) = true :=
      (anyId_iff sel r.id).mpr (List.mem_map_of_mem Artwork.id hr)
    rw [mapGet_onSelectionChange, if_neg (by simp [hselany])]
    exact foldl_set_get_mem sel s.selectedMap r hr hnd
  · intro r hr hnot
    have h1 : sel.any (fun x => x.id == r.id) = false :=
      eq_false_of_ne_true (fun hh => hnot ((anyId_iff _ _).mp hh))
    have h2 : s.rows.any (fun x => x.id == r.id) = true :=
      (anyId_iff _ _).mpr (List.mem_map_of_mem Artwork.id hr)
    rw [mapGet_onSelectionChange, if_pos (by simp [h1, h2])]
  · intro k hk
    have h2 : s.rows.any (fun x => x.id == k) = false :=
      eq_false_of_ne_true (fun hh => hk ((anyId_iff _ _).mp hh))
    have h3 : sel.any (fun x => x.id == k) = false := by
      apply eq_false_of_ne_true
      intro hh
      rcases List.mem_map.mp ((anyId_iff sel k).mp hh) with ⟨r, hr, hid⟩
      exact hk (List.mem_map.mpr ⟨r, hsub r hr, hid⟩)
    rw [mapGet_onSelectionChange, if_neg (by simp [h2])]
    exact foldl_set_get_of_not_any sel s.selectedMap k h3
  · intro k
    rw [mapHas_onSelectionChange]
    by_cases hsel : sel.any (fun x => x.id == k) = true
    · simp [hsel, (anyId_iff sel k).mp hsel]
    · have h1 : ¬ k ∈ sel.map Artwork.id :=
        fun hh => hsel ((anyId_iff _ _).mpr hh)
      have hsf := eq_false_of_ne_true hsel
      by_cases hrows : s.rows.any (fun r => r.id == k) = true
      · simp [hsf, hrows, h1, (anyId_iff _ _).mp hrows]
      · have h2 : ¬ k ∈ s.rows.map Artwork.id :=
          fun hh => hrows ((anyId_iff _ _).mpr hh)
        have hrf := eq_false_of_ne_true hrows
        simp [hsf, hrf, h1, h2]

/-- Witness for C1: in the sample state, checking exactly row 1 leaves
its projection entry under key 1. -/
theorem claim1_witness :
    mapGet (onSelectionChange [sampleArt 1] sampleState).selectedMap
        (sampleArt 1).id
      = some (entryOf (sampleArt 1)) :=
  (claim1_toggle_page_selection sampleState [sampleArt 1]
      (by decide) (by decide)).1 (sampleArt 1) (by decide)

/-- C2: after any callback sequence from mount, an identifier is in the
Selection Store exactly when the last operation affecting it marked it
selected, in the sense transcribed by `lastMarkedSelected`. -/
theorem claim2_store_iff_last_marked (evs : List Event) (k : Option Int) :
    mapHas (run evs).selectedMap k = lastMarkedSelected evs k := by
  have h := run_mark_aux evs initState k
  have h0 : ((initState.rows, mapHas initState.selectedMap k) :
      List Artwork × Bool) = ([], false) := rfl
  rw [h0] at h
  unfold run lastMarkedSelected
  rw [h]

/-- Counterexample for C3 as stated: identifier 1 is both visible and
already selected in `sampleState`; select-all followed by clear-page
drops it, so the store does not return to its prior state on that
page's identifiers. -/
theorem claim3_counterexample :
    ¬ (mapGet (clearSelectionOnPage (selectAllOnPage sampleState)).selectedMap
          (some 1)
        = mapGet sampleState.selectedMap (some 1)) := by
  decide

/-- C3 (amended): select-all followed immediately by clear-page leaves
every visible identifier absent and every other identifier exactly as it
was; the pair restores the prior store on the page's identifiers only
when none of them was previously selected. -/
theorem claim3_selectAll_then_clear (s : CompState) (k : Option Int) :
    mapGet (clearSelectionOnPage (selectAllOnPage s)).selectedMap k
      = if k ∈ s.rows.map Artwork.id then none
        else mapGet s.selectedMap k := by
  have hrows : (selectAllOnPage s).rows = s.rows := rfl
  rw [mapGet_clearSelectionOnPage, hrows]
  by_cases h : s.rows.any (fun r => r.id == k) = true
  · simp [h, (anyId_iff _ _).mp h]
  · have h2 : ¬ k ∈ s.rows.map Artwork.id :=
      fun hh => h ((anyId_iff _ _).mpr hh)
    have hf := eq_false_of_ne_true h
    rw [if_neg h, if_neg h2]
    exact foldl_set_get_of_not_any s.rows s.selectedMap k hf

/-- C4: normalization copies exactly the seven consumed fields of the
raw record (value when present, `none` — JS `null`/`undefined` — when
absent) and reads nothing else of the raw record. -/
theorem claim4_normalize_fields (d : RawArtwork) :
    (normalizeArtwork d).id = d.id ∧
    (normalizeArtwork d).title = d.title ∧
    (normalizeArtwork d).place_of_origin = d.place_of_origin ∧
    (normalizeArtwork d).artist_display = d.artist_display ∧
    (normalizeArtwork d).inscriptions = d.inscriptions ∧
    (normalizeArtwork d).date_start = d.date_start ∧
    (normalizeArtwork d).date_end = d.date_end ∧
    (∀ ex, normalizeArtwork { d with extra := ex } = normalizeArtwork d) :=
  ⟨rfl, rfl, rfl, rfl, rfl, rfl, rfl, fun _ => rfl⟩

/-- Counterexample for C5 as stated: in `stale5State` a fetch issued
from `sampleState` is in flight and identifier 1 was removed from the
store during the flight.  When the response settles, line 64's stale
closure still sees 1 in its captured map, so row 1 ends up checked —
the checked subset is not the intersection of the new rows with the
Selection Store at response-processing time. -/
theorem claim5_counterexample :
    ¬ (∀ r, r ∈ (fetchSuccess sampleResp stale5State).pageSelection ↔
        (r ∈ (fetchSuccess sampleResp stale5State).rows ∧
          mapHas stale5State.selectedMap r.id = true)) := by
  intro h
  exact absurd ((h (sampleArt 1)).mp (by decide)).2 (by decide)

/-- C5 (amended): a successful fetch replaces the visible rows by the
normalized response records, sets the total to the response's pagination
total, and the new checked subset holds exactly the new visible records
whose identifier is a key of the Selection Store snapshot captured when
the fetch was issued (line 64's stale closure); this coincides with the
settle-time store only when no selection mutation occurred while the
fetch was in flight. -/
theorem claim5_fetch_success (s : CompState) (resp : ApiResponse)
    (p : Pagination) (t : Int) (snap : SelMap)
    (hp : resp.pagination = some p) (ht : p.total = some t)
    (hsnap : s.pendingSnap = some snap) :
    (fetchSuccess resp s).rows = (resp.data.getD []).map normalizeArtwork ∧
    (fetchSuccess resp s).totalRecords = t ∧
    (∀ r, r ∈ (fetchSuccess resp s).pageSelection ↔
      (r ∈ (fetchSuccess resp s).rows ∧ mapHas snap r.id = true)) := by
  refine ⟨rfl, ?_, ?_⟩
  · rw [totalRecords_fetchSuccess, hp]
    simp [Option.bind, ht]
  · intro r
    rw [pageSelection_fetchSuccess, rows_fetchSuccess]
    simp only [hsnap, Option.getD_some]
    exact List.mem_filter

/-- Witness for C5 (amended): settling the sample response on the
mutated in-flight state yields the pagination total, and row 1 is
checked because its identifier is in the issue-time snapshot. -/
theorem claim5_witness :
    (fetchSuccess sampleResp stale5State).totalRecords = 5 ∧
    sampleArt 1 ∈ (fetchSuccess sampleResp stale5State).pageSelection :=
  ⟨(claim5_fetch_success stale5State sampleResp
      { total := some 5, limit := some 10, current_page := some 1, total_pages := some 1 }
      5 sampleState.selectedMap rfl rfl rfl).2.1,
    ((claim5_fetch_success stale5State sampleResp
      { total := some 5, limit := some 10, current_page := some 1, total_pages := some 1 }
      5 sampleState.selectedMap rfl rfl rfl).2.2 (sampleArt 1)).mpr
      ⟨by decide, by decide⟩⟩

/-- C6: from a state whose checked subset is derived from the store,
navigating to another page, running any callbacks that do not change
store membership for the original page's identifiers, and fetching the
original page again (same records) reproduces the original checked
subset. -/
theorem claim6_page_roundtrip (s : CompState) (resp2 resp1 : ApiResponse)
    (p2 p1 : Int) (mid : List Event)
    (hcoh : s.pageSelection
      = s.rows.filter (fun r => mapHas s.selectedMap r.id))
    (hframe : ∀ r ∈ s.rows,
      mapHas ((mid.foldl stepEv
          (fetchSuccess resp2 (onPageChange p2 s))).selectedMap) r.id
        = mapHas s.selectedMap r.id)
    (hsame : (resp1.data.getD []).map normalizeArtwork = s.rows) :
    (fetchSuccess resp1 (onPageChange p1
        (mid.foldl stepEv (fetchSuccess resp2 (onPageChange p2 s))))).pageSelection
      = s.pageSelection := by
  rw [pageSelection_fetchSuccess]
  simp only [pendingSnap_onPageChange, Option.getD_some]
  rw [hsame, hcoh]
  apply List.filter_congr
  intro r hr
  exact hframe r hr

/-- Witness for C6: leaving the sample page and fetching it back with
the sample response reproduces the checked subset. -/
theorem claim6_witness :
    (fetchSuccess sampleResp (onPageChange 0
        (([] : List Event).foldl stepEv
          (fetchSuccess sampleResp (onPageChange 1 sampleState))))).pageSelection
      = sampleState.pageSelection :=
  claim6_page_roundtrip sampleState sampleResp sampleResp 1 0 []
    (by decide) (by decide) (by decide)

/-- C7: select-all and clear-page leave every identifier off the visible
page untouched, and remove-one with identifier `i` leaves every
identifier other than `i` — visible or not — untouched. -/
theorem claim7_frame (s : CompState) (k i : Option Int) :
    (¬ k ∈ s.rows.map Artwork.id →
      mapGet (selectAllOnPage s).selectedMap k = mapGet s.selectedMap k ∧
      mapGet (clearSelectionOnPage s).selectedMap k = mapGet s.selectedMap k) ∧
    (¬ k = i →
      mapGet (removeFromSelection i s).selectedMap k = mapGet s.selectedMap k) := by
  constructor
  · intro hk
    have hany : s.rows.any (fun r => r.id == k) = false :=
      eq_false_of_ne_true (fun hh => hk ((anyId_iff _ _).mp hh))
    constructor
    · exact foldl_set_get_of_not_any s.rows s.selectedMap k hany
    · rw [mapGet_clearSelectionOnPage, if_neg (by simp [hany])]
  · intro hik
    show mapGet (mapDelete s.selectedMap i) k = mapGet s.selectedMap k
    rw [mapGet_mapDelete, if_neg hik]

/-- Witness for C7: selecting all leaves off-page identifier 7
untouched, and removing identifier 9 leaves the visible, selected
identifier 1 untouched. -/
theorem claim7_witness :
    mapGet (selectAllOnPage sampleState).selectedMap (some 7)
        = mapGet sampleState.selectedMap (some 7) ∧
    mapGet (removeFromSelection (some 9) sampleState).selectedMap (some 1)
      = mapGet sampleState.selectedMap (some 1) :=
  ⟨((claim7_frame sampleState (some 7) (some 9)).1 (by decide)).1,
    (claim7_frame sampleState (some 1) (some 9)).2 (by decide)⟩

/-- C8: a fetch that starts and then fails leaves rows, total, store,
checked subset and page number unchanged, ends with the loading flag
cleared, and appends exactly one report to the observability sink. -/
theorem claim8_failed_fetch (s : CompState) :
    (fetchFailure (fetchStart s)).rows = s.rows ∧
    (fetchFailure (fetchStart s)).totalRecords = s.totalRecords ∧
    (fetchFailure (fetchStart s)).selectedMap = s.selectedMap ∧
    (fetchFailure (fetchStart s)).pageSelection = s.pageSelection ∧
    (fetchFailure (fetchStart s)).currentPage = s.currentPage ∧
    (fetchFailure (fetchStart s)).loading = false ∧
    (fetchFailure (fetchStart s)).errorLog = s.errorLog ++ ["fetch error"] :=
  ⟨rfl, rfl, rfl, rfl, rfl, rfl, rfl⟩

/-- C9: a navigation to 0-based page `p` displays page `p + 1` already
while the fetch is in flight, and a failed fetch keeps that page number
while rows and total still belong to the previously displayed page. -/
theorem claim9_page_number (s : CompState) (p : Int) :
    (onPageChange p s).currentPage = p + 1 ∧
    (onPageChange p s).loading = true ∧
    (onPageChange p s).rows = s.rows ∧
    (onPageChange p s).totalRecords = s.totalRecords ∧
    (fetchFailure (onPageChange p s)).currentPage = p + 1 ∧
    (fetchFailure (onPageChange p s)).rows = s.rows ∧
    (fetchFailure (onPageChange p s)).totalRecords = s.totalRecords ∧
    (fetchFailure (onPageChange p s)).loading = false :=
  ⟨rfl, rfl, rfl, rfl, rfl, rfl, rfl, rfl⟩

/-- C10: a response without a `data` field empties the visible rows and
the checked subset, and if `pagination.total` is also missing the total
becomes 0. -/
theorem claim10_missing_data (s : CompState) (resp : ApiResponse)
    (hd : resp.data = none) :
    (fetchSuccess resp s).rows = [] ∧
    (fetchSuccess resp s).pageSelection = [] ∧
    (resp.pagination.bind Pagination.total = none →
      (fetchSuccess resp s).totalRecords = 0) := by
  refine ⟨?_, ?_, ?_⟩
  · rw [rows_fetchSuccess, hd]
    rfl
  · rw [pageSelection_fetchSuccess, hd]
    rfl
  · intro ht
    rw [totalRecords_fetchSuccess, ht]
    rfl

/-- Witness for C10: the empty-bodied response zeroes the total. -/
theorem claim10_witness :
    (fetchSuccess emptyResp sampleState).totalRecords = 0 :=
  (claim10_missing_data sampleState emptyResp rfl).2.2 rfl

end ArtworksTable
